import Mathlib

/-!
Verification of `packages/@aws-cdk/aws-apprunner-alpha/lib/vpc-ingress-connection.ts`
(the AppRunner `VpcIngressConnection` construct) against its specification.

The embedding is shallow:
* construct-time string values that may be CloudFormation tokens are modelled
  by the sum type `CdkValue` (`concrete` / `token`);
* the constructor becomes a function returning `Except ConstructError`,
  matching the `throw new Error(...)` paths of the source;
* the `CfnVpcIngressConnection` child resource created by the constructor is
  modelled as an emitted `ResourceRequest` value; the list of emitted requests
  is returned alongside the handle so that "no request is emitted" is a
  statement about the model;
* string length follows JavaScript semantics (UTF-16 code units), see
  `jsLength`.
-/

namespace VpcIngress

/-- A CDK string-typed value: either a concrete string or an unresolved
token (a deferred placeholder resolved at a later synthesis stage). -/
inductive CdkValue where
  | concrete (s : String)
  | token (id : Nat)
deriving DecidableEq, Repr

/-- Modelled from the spec: the DeferredValue marker test
(`cdk.Token.isUnresolved` of `aws-cdk-lib/core`, not under `src/`) —
a value is unresolved exactly when it is a deferred placeholder. -/
def isUnresolvedToken : CdkValue → Bool
  | .token _ => true
  | .concrete _ => false

/-- JavaScript `String.prototype.length` counts UTF-16 code units: a code
point at or above `0x10000` contributes two units, every other one unit. -/
def utf16Units (c : Char) : Nat :=
  if c.toNat < 0x10000 then 1 else 2

/-- JavaScript length of a string (UTF-16 code units), the length notion of
`props.vpcIngressConnectionName.length` in the source. -/
def jsLength (s : String) : Nat :=
  (s.data.map utf16Units).sum

/-- `[A-Za-z0-9]` of the source regex: ASCII alphanumeric. -/
def isAsciiAlphanumeric (c : Char) : Bool :=
  (65 ≤ c.toNat && c.toNat ≤ 90) ||
  (97 ≤ c.toNat && c.toNat ≤ 122) ||
  (48 ≤ c.toNat && c.toNat ≤ 57)

/-- `[A-Za-z0-9\-_]` of the source regex: ASCII alphanumeric, hyphen or
underscore. -/
def isNameChar (c : Char) : Bool :=
  isAsciiAlphanumeric c || c == '-' || c == '_'

/-- The test `/^[A-Za-z0-9][A-Za-z0-9\-_]*$/.test name` of the source: the
first character is ASCII alphanumeric and every later character is ASCII
alphanumeric, hyphen or underscore; the empty string does not match. -/
def matchesNamePattern (s : String) : Bool :=
  match s.data with
  | [] => false
  | c :: rest => isAsciiAlphanumeric c && rest.all isNameChar

/-- `ec2.IVpc` as read by this construct: only `vpcId` is consumed. -/
structure VpcRef where
  vpcId : String
deriving DecidableEq, Repr

/-- `ec2.IInterfaceVpcEndpoint` as read by this construct: only
`vpcEndpointId` is consumed. -/
structure EndpointRef where
  vpcEndpointId : String
deriving DecidableEq, Repr

/-- `IService` as read by this construct: only `serviceArn` is consumed. -/
structure ServiceRef where
  serviceArn : String
deriving DecidableEq, Repr

/-- `VpcIngressConnectionProps` of the source. -/
structure VpcIngressConnectionProps where
  vpcIngressConnectionName : Option CdkValue
  service : ServiceRef
  vpc : VpcRef
  interfaceVpcEndpoint : EndpointRef
deriving DecidableEq, Repr

/-- `VpcIngressConnectionAttributes` of the source: all four fields required. -/
structure VpcIngressConnectionAttributes where
  vpcIngressConnectionArn : String
  vpcIngressConnectionName : String
  domainName : String
  status : String
deriving DecidableEq, Repr

/-- The `CfnVpcIngressConnection` created by the constructor — the
ResourceRequest handed to the provisioning collaborator, with the fields the
source sets: `ingressVpcConfiguration.vpcEndpointId`,
`ingressVpcConfiguration.vpcId`, `serviceArn`, `vpcIngressConnectionName`. -/
structure ResourceRequest where
  vpcEndpointId : String
  vpcId : String
  serviceArn : String
  vpcIngressConnectionName : Option CdkValue
deriving DecidableEq, Repr

/-- The handle produced by the create path: the source binds the four fields
to the collaborator's reflected outputs (`resource.attrVpcIngressConnectionArn`,
`resource.ref`, `resource.attrDomainName`, `resource.attrStatus`), each an
unresolved attribute reference at construction time. -/
inductive AttrRef where
  | attrVpcIngressConnectionArn
  | ref
  | attrDomainName
  | attrStatus
deriving DecidableEq, Repr

/-- The `VpcIngressConnection` instance after a successful constructor run:
all four observable fields bound to reflected output attributes. -/
structure CreatedHandle where
  vpcIngressConnectionArn : AttrRef
  vpcIngressConnectionName : AttrRef
  domainName : AttrRef
  status : AttrRef
deriving DecidableEq, Repr

/-- The errors the constructor can throw.  `invalidNameLength` carries the
actual length reported by the source message, `invalidNameFormat` the actual
name string. -/
inductive ConstructError where
  | invalidNameLength (actualLength : Nat)
  | invalidNameFormat (actualName : String)
deriving DecidableEq, Repr

/-- The `Error` message text of the source for each failure. -/
def errorMessage : ConstructError → String
  | .invalidNameLength n =>
      "`vpcIngressConnectionName` must be between 4 and 40 characters, got: "
        ++ toString n ++ " characters."
  | .invalidNameFormat s =>
      "`vpcIngressConnectionName` must start with an alphanumeric character and contain only alphanumeric characters, hyphens, or underscores after that, got: "
        ++ s ++ "."

/-- Successful constructor output: the handle plus the requests emitted to
the provisioning collaborator while constructing (the source creates exactly
one `CfnVpcIngressConnection`). -/
structure ConstructOutput where
  handle : CreatedHandle
  requests : List ResourceRequest
deriving DecidableEq, Repr

/-- Modelled from the spec: `cdk.Resource`'s `physicalName` plumbing (not
under `src/`) — the request carries "either the validated name or a
use-physical/assigned-name placeholder", i.e. the props name is passed
through unchanged. -/
def physicalName (props : VpcIngressConnectionProps) : Option CdkValue :=
  props.vpcIngressConnectionName

/-- The success tail of the constructor (source lines 161–173): create the
`CfnVpcIngressConnection` request from the props fields and bind the four
observable fields of the handle to its reflected attributes. -/
def emitResource (props : VpcIngressConnectionProps) : ConstructOutput :=
  { handle :=
      { vpcIngressConnectionArn := AttrRef.attrVpcIngressConnectionArn
        vpcIngressConnectionName := AttrRef.ref
        domainName := AttrRef.attrDomainName
        status := AttrRef.attrStatus }
    requests :=
      [{ vpcEndpointId := props.interfaceVpcEndpoint.vpcEndpointId
         vpcId := props.vpc.vpcId
         serviceArn := props.service.serviceArn
         vpcIngressConnectionName := physicalName props }] }

/-- `VpcIngressConnection`'s constructor (source lines 141–174).  Validation
runs exactly when the name is defined and not an unresolved token — in this
model exactly the `some (concrete _)` case, since a present non-token string
value is precisely a concrete string.  Length is checked first (`[4,40]` in
UTF-16 code units, JavaScript `.length`), then the regex; then one
`CfnVpcIngressConnection` is created. -/
def construct (props : VpcIngressConnectionProps) :
    Except ConstructError ConstructOutput :=
  match props.vpcIngressConnectionName with
  | some (CdkValue.concrete name) =>
      if jsLength name < 4 ∨ jsLength name > 40 then
        Except.error (ConstructError.invalidNameLength (jsLength name))
      else if matchesNamePattern name = false then
        Except.error (ConstructError.invalidNameFormat name)
      else Except.ok (emitResource props)
  | _ => Except.ok (emitResource props)

/-- The handle produced by the two import paths.  `fromArn` leaves
`domainName` and `status` unset (`none`); `fromVpcIngressConnectionAttributes`
sets all four. -/
structure ImportedHandle where
  vpcIngressConnectionArn : String
  vpcIngressConnectionName : String
  domainName : Option String
  status : Option String
deriving DecidableEq, Repr

/-- `fromVpcIngressConnectionAttributes` (source lines 85–99): copy the four
attributes verbatim into the handle; the second component is the list of
requests emitted — none. -/
def fromVpcIngressConnectionAttributes
    (attrs : VpcIngressConnectionAttributes) :
    ImportedHandle × List ResourceRequest :=
  ({ vpcIngressConnectionArn := attrs.vpcIngressConnectionArn
     vpcIngressConnectionName := attrs.vpcIngressConnectionName
     domainName := some attrs.domainName
     status := some attrs.status }, [])

/-- Modelled from the spec: `cdk.Fn.split` (of `aws-cdk-lib/core`, not under
`src/`) on a concrete string splits it at every occurrence of the delimiter
(JavaScript `String.prototype.split` with a one-character separator):
the empty list of characters yields one empty segment. -/
def splitList (delim : Char) : List Char → List (List Char)
  | [] => [[]]
  | c :: cs =>
      match splitList delim cs with
      | [] => [[]]
      | seg :: rest =>
          if c = delim then [] :: seg :: rest else (c :: seg) :: rest

/-- Modelled from the spec: `cdk.Fn.split` on a concrete string. -/
def fnSplit (delim : Char) (source : String) : List String :=
  (splitList delim source.data).map (fun cs => String.mk cs)

/-- Modelled from the spec: `cdk.Fn.select` on a concrete list — select the
element at the given index. -/
def fnSelect (index : Nat) (array : List String) : String :=
  array.getD index ""

/-- `fromArn` (source lines 104–115): split the ARN on `/`, take segment 0
as the name, keep the ARN verbatim, leave `domainName` and `status` unset;
no request is emitted. -/
def fromArn (vpcIngressConnectionArn : String) :
    ImportedHandle × List ResourceRequest :=
  let resourceParts := fnSplit '/' vpcIngressConnectionArn
  let name := fnSelect 0 resourceParts
  ({ vpcIngressConnectionArn := vpcIngressConnectionArn
     vpcIngressConnectionName := name
     domainName := none
     status := none }, [])

/-! ### Concrete props used by the witnesses -/

/-- A concrete service reference for witnesses. -/
def demoService : ServiceRef :=
  { serviceArn := "arn:aws:apprunner:us-east-1:123456789012:service/demo-service/8fe1e10304f84fd2b0df550fe98a71fa" }

/-- A concrete VPC reference for witnesses. -/
def demoVpc : VpcRef := { vpcId := "vpc-1234" }

/-- A concrete interface endpoint reference for witnesses. -/
def demoEndpoint : EndpointRef := { vpcEndpointId := "vpce-5678" }

/-- Concrete props for witnesses, parameterised by the name value. -/
def demoProps (n : Option CdkValue) : VpcIngressConnectionProps :=
  { vpcIngressConnectionName := n
    service := demoService
    vpc := demoVpc
    interfaceVpcEndpoint := demoEndpoint }

/-! ### Helper lemmas -/

/-- An ASCII alphanumeric character is a legal name character. -/
theorem isNameChar_of_alnum {c : Char} (h : isAsciiAlphanumeric c = true) :
    isNameChar c = true := by
  unfold isNameChar
  simp [h]

/-- Legal name characters lie in the BMP, so each takes one UTF-16 unit. -/
theorem utf16Units_eq_one_of_isNameChar {c : Char} (h : isNameChar c = true) :
    utf16Units c = 1 := by
  have hlt : c.toNat < 0x10000 := by
    unfold isNameChar isAsciiAlphanumeric at h
    simp only [Bool.or_eq_true, Bool.and_eq_true, decide_eq_true_eq,
      beq_iff_eq] at h
    rcases h with (((⟨_, h2⟩ | ⟨_, h2⟩) | ⟨_, h2⟩) | he) | he
    · omega
    · omega
    · omega
    · subst he; decide
    · subst he; decide
  unfold utf16Units
  rw [if_pos hlt]

/-- Summing one UTF-16 unit per character gives the character count. -/
theorem sum_map_utf16Units (l : List Char) (h : ∀ c ∈ l, utf16Units c = 1) :
    (l.map utf16Units).sum = l.length := by
  induction l with
  | nil => rfl
  | cons c cs ih =>
      have h1 := h c (List.mem_cons_self c cs)
      have h2 := ih (fun d hd => h d (List.mem_cons_of_mem c hd))
      simp only [List.map_cons, List.sum_cons, List.length_cons, h1, h2]
      omega

/-- For a string of BMP characters the JavaScript length is the character
count. -/
theorem jsLength_eq_length {s : String}
    (h : ∀ c ∈ s.data, utf16Units c = 1) : jsLength s = s.length := by
  unfold jsLength
  rw [sum_map_utf16Units s.data h]
  rfl

/-- A string with no characters has JavaScript length zero. -/
theorem jsLength_of_data_nil {s : String} (h : s.data = []) :
    jsLength s = 0 := by
  unfold jsLength
  rw [h]
  rfl

/-- The first segment produced by `splitList` is everything before the first
delimiter. -/
theorem splitList_head (d : Char) (l : List Char) :
    ∃ rest, splitList d l = l.takeWhile (fun c => c ≠ d) :: rest := by
  induction l with
  | nil => exact ⟨[], rfl⟩
  | cons c cs ih =>
      obtain ⟨rest, hr⟩ := ih
      by_cases hc : c = d
      · refine ⟨cs.takeWhile (fun x => x ≠ d) :: rest, ?_⟩
        simp [splitList, hr, hc]
      · refine ⟨rest, ?_⟩
        simp [splitList, hr, hc]

/-- Splitting a delimiter-free character list yields the list itself as the
single segment. -/
theorem splitList_of_not_mem {d : Char} {l : List Char} (h : d ∉ l) :
    splitList d l = [l] := by
  induction l with
  | nil => rfl
  | cons c cs ih =>
      have hc : ¬ c = d := by
        intro hcd
        subst hcd
        exact h (List.mem_cons_self c cs)
      have hcs : d ∉ cs := fun hm => h (List.mem_cons_of_mem c hm)
      simp [splitList, ih hcs, hc]

/-! ### Claim theorems -/

/-- C1: for every concrete name of length in `[4,40]` whose first character
is ASCII alphanumeric and whose remaining characters are ASCII alphanumeric,
hyphen or underscore, the constructor succeeds and the
`vpcIngressConnectionName` of the emitted `CfnVpcIngressConnection` request
equals the input name. -/
theorem construct_valid_name_ok (props : VpcIngressConnectionProps)
    (name : String)
    (hn : props.vpcIngressConnectionName = some (CdkValue.concrete name))
    (hlo : 4 ≤ name.length) (hhi : name.length ≤ 40)
    (hfmt : ∃ c rest, name.data = c :: rest ∧ isAsciiAlphanumeric c = true ∧
      ∀ d ∈ rest, isNameChar d = true) :
    ∃ out, construct props = Except.ok out ∧
      out.requests.map (fun r => r.vpcIngressConnectionName)
        = [some (CdkValue.concrete name)] := by
  obtain ⟨c, rest, hdata, hc, hrest⟩ := hfmt
  have hall : ∀ d ∈ name.data, utf16Units d = 1 := by
    rw [hdata]
    intro d hd
    rcases List.mem_cons.mp hd with rfl | hm
    · exact utf16Units_eq_one_of_isNameChar (isNameChar_of_alnum hc)
    · exact utf16Units_eq_one_of_isNameChar (hrest d hm)
  have hjs : jsLength name = name.length := jsLength_eq_length hall
  have hcond : ¬ (jsLength name < 4 ∨ jsLength name > 40) := by
    rw [hjs]; omega
  have hpat : matchesNamePattern name = true := by
    have hm : matchesNamePattern name
        = (isAsciiAlphanumeric c && rest.all isNameChar) := by
      unfold matchesNamePattern
      rw [hdata]
    rw [hm, hc, Bool.true_and]
    exact List.all_eq_true.mpr hrest
  refine ⟨emitResource props, ?_, ?_⟩
  · simp [construct, hn, hcond, hpat]
  · simp [emitResource, physicalName, hn]

/-- C1 witness: the name `"Valid-Name_1"` is accepted and passed through. -/
theorem construct_valid_name_ok_witness :
    ∃ out,
      construct (demoProps (some (CdkValue.concrete "Valid-Name_1")))
        = Except.ok out ∧
      out.requests.map (fun r => r.vpcIngressConnectionName)
        = [some (CdkValue.concrete "Valid-Name_1")] :=
  construct_valid_name_ok (demoProps (some (CdkValue.concrete "Valid-Name_1")))
    "Valid-Name_1" rfl (by decide) (by decide)
    ⟨'V', "alid-Name_1".data, by decide, by decide, by decide⟩

/-- C3: every concrete name whose JavaScript length is outside `[4,40]`
makes the constructor fail with `invalidNameLength` — even when the name
also violates the format rule, the length error wins because the length
check runs first — and the error message reports the actual length. -/
theorem construct_bad_length_error (props : VpcIngressConnectionProps)
    (name : String)
    (hn : props.vpcIngressConnectionName = some (CdkValue.concrete name))
    (hlen : jsLength name < 4 ∨ jsLength name > 40) :
    construct props
      = Except.error (ConstructError.invalidNameLength (jsLength name)) ∧
    errorMessage (ConstructError.invalidNameLength (jsLength name))
      = "`vpcIngressConnectionName` must be between 4 and 40 characters, got: "
        ++ toString (jsLength name) ++ " characters." := by
  refine ⟨?_, rfl⟩
  simp [construct, hn, hlen]

/-- C3 witness: the name `"!?"` violates both the length and the format
rule; the constructor reports `invalidNameLength 2`. -/
theorem construct_bad_length_error_witness :
    construct (demoProps (some (CdkValue.concrete "!?")))
      = Except.error (ConstructError.invalidNameLength (jsLength "!?")) ∧
    errorMessage (ConstructError.invalidNameLength (jsLength "!?"))
      = "`vpcIngressConnectionName` must be between 4 and 40 characters, got: "
        ++ toString (jsLength "!?") ++ " characters." :=
  construct_bad_length_error (demoProps (some (CdkValue.concrete "!?")))
    "!?" rfl (by decide)

/-- C4: every concrete name of valid JavaScript length whose first character
is not ASCII alphanumeric, or which contains a character outside ASCII
alphanumerics, hyphen and underscore, makes the constructor fail with
`invalidNameFormat`, and the error message reports the actual name. -/
theorem construct_bad_format_error (props : VpcIngressConnectionProps)
    (name : String)
    (hn : props.vpcIngressConnectionName = some (CdkValue.concrete name))
    (hlo : 4 ≤ jsLength name) (hhi : jsLength name ≤ 40)
    (hbad : (∃ c rest, name.data = c :: rest ∧ isAsciiAlphanumeric c = false)
      ∨ (∃ c ∈ name.data, isNameChar c = false)) :
    construct props = Except.error (ConstructError.invalidNameFormat name) ∧
    errorMessage (ConstructError.invalidNameFormat name)
      = "`vpcIngressConnectionName` must start with an alphanumeric character and contain only alphanumeric characters, hyphens, or underscores after that, got: "
        ++ name ++ "." := by
  refine ⟨?_, rfl⟩
  have hne : name.data ≠ [] := by
    intro h0
    have := jsLength_of_data_nil h0
    omega
  have hcond : ¬ (jsLength name < 4 ∨ jsLength name > 40) := by omega
  have hpat : matchesNamePattern name = false := by
    cases hd : name.data with
    | nil => exact absurd hd hne
    | cons c rest =>
        have hm : matchesNamePattern name
            = (isAsciiAlphanumeric c && rest.all isNameChar) := by
          unfold matchesNamePattern
          rw [hd]
        rw [hm]
        cases ha : isAsciiAlphanumeric c with
        | false => simp
        | true =>
            cases hb : rest.all isNameChar with
            | false => simp
            | true =>
                exfalso
                have hrestAll := List.all_eq_true.mp hb
                rcases hbad with ⟨c', rest', heq, hc'⟩ | ⟨c', hmem, hc'⟩
                · rw [hd] at heq
                  injection heq with e1 _
                  rw [← e1, ha] at hc'
                  exact Bool.noConfusion hc'
                · rw [hd] at hmem
                  rcases List.mem_cons.mp hmem with rfl | hm'
                  · rw [isNameChar_of_alnum ha] at hc'
                    exact Bool.noConfusion hc'
                  · rw [hrestAll c' hm'] at hc'
                    exact Bool.noConfusion hc'
  simp [construct, hn, hcond, hpat]

/-- C4 witness: the name `"-abc"` has valid length but starts with a hyphen;
the constructor reports `invalidNameFormat "-abc"`. -/
theorem construct_bad_format_error_witness :
    construct (demoProps (some (CdkValue.concrete "-abc")))
      = Except.error (ConstructError.invalidNameFormat "-abc") ∧
    errorMessage (ConstructError.invalidNameFormat "-abc")
      = "`vpcIngressConnectionName` must start with an alphanumeric character and contain only alphanumeric characters, hyphens, or underscores after that, got: "
        ++ "-abc" ++ "." :=
  construct_bad_format_error (demoProps (some (CdkValue.concrete "-abc")))
    "-abc" rfl (by decide) (by decide)
    (Or.inl ⟨'-', "abc".data, by decide, by decide⟩)

/-- C5: when the name is an unresolved token, the constructor skips both
checks and succeeds for every such token, passing the placeholder through to
the emitted request. -/
theorem construct_unresolved_name_ok (props : VpcIngressConnectionProps)
    (nv : CdkValue)
    (hn : props.vpcIngressConnectionName = some nv)
    (htok : isUnresolvedToken nv = true) :
    construct props = Except.ok (emitResource props) ∧
    (emitResource props).requests.map (fun r => r.vpcIngressConnectionName)
      = [some nv] := by
  cases nv with
  | concrete s => simp [isUnresolvedToken] at htok
  | token i =>
      exact ⟨by simp [construct, hn], by simp [emitResource, physicalName, hn]⟩

/-- C5 witness: the token with id 7 is accepted and passed through. -/
theorem construct_unresolved_name_ok_witness :
    construct (demoProps (some (CdkValue.token 7)))
      = Except.ok (emitResource (demoProps (some (CdkValue.token 7)))) ∧
    (emitResource (demoProps (some (CdkValue.token 7)))).requests.map
        (fun r => r.vpcIngressConnectionName)
      = [some (CdkValue.token 7)] :=
  construct_unresolved_name_ok (demoProps (some (CdkValue.token 7)))
    (CdkValue.token 7) rfl rfl

/-- C10: the empty string counts as a present concrete name: the constructor
fails with `invalidNameLength 0` instead of taking the assigned-name path. -/
theorem construct_empty_name_invalid_length (props : VpcIngressConnectionProps)
    (hn : props.vpcIngressConnectionName = some (CdkValue.concrete "")) :
    construct props = Except.error (ConstructError.invalidNameLength 0) := by
  have h0 : jsLength "" = 0 := rfl
  have hlen : jsLength "" < 4 ∨ jsLength "" > 40 := by rw [h0]; omega
  simpa [h0] using (by simp [construct, hn, hlen] :
    construct props
      = Except.error (ConstructError.invalidNameLength (jsLength "")))

/-- C10 witness: concrete props with an empty name fail with length 0. -/
theorem construct_empty_name_invalid_length_witness :
    construct (demoProps (some (CdkValue.concrete "")))
      = Except.error (ConstructError.invalidNameLength 0) :=
  construct_empty_name_invalid_length (demoProps (some (CdkValue.concrete "")))
    rfl

/-- C6: `fromVpcIngressConnectionAttributes` copies all four attributes
verbatim into the handle and emits no request; it is total, so no exception
can be raised. -/
theorem fromAttributes_identity (attrs : VpcIngressConnectionAttributes) :
    (fromVpcIngressConnectionAttributes attrs).1.vpcIngressConnectionArn
      = attrs.vpcIngressConnectionArn ∧
    (fromVpcIngressConnectionAttributes attrs).1.vpcIngressConnectionName
      = attrs.vpcIngressConnectionName ∧
    (fromVpcIngressConnectionAttributes attrs).1.domainName
      = some attrs.domainName ∧
    (fromVpcIngressConnectionAttributes attrs).1.status
      = some attrs.status ∧
    (fromVpcIngressConnectionAttributes attrs).2 = [] :=
  ⟨rfl, rfl, rfl, rfl, rfl⟩

/-- C2 counterexample: at the ARN of the claim, the name extracted by
`fromArn` is not `"vpcingressconnection"` — the first `/`-delimited segment
is the whole `arn:...:vpcingressconnection` prefix, since the colons are not
separators. -/
theorem fromArn_sample_name_ne_claimed :
    (fromArn "arn:aws:apprunner:us-east-1:123456789012:vpcingressconnection/myconn/abcd1234").1.vpcIngressConnectionName
      ≠ "vpcingressconnection" := by
  decide

/-- C2 amended: at the ARN of the claim, the handle keeps the full ARN
verbatim, its name is the first `/`-delimited segment
`"arn:aws:apprunner:us-east-1:123456789012:vpcingressconnection"`, and
`domainName` and `status` are unset. -/
theorem fromArn_sample_first_segment :
    fromArn "arn:aws:apprunner:us-east-1:123456789012:vpcingressconnection/myconn/abcd1234"
      = ({ vpcIngressConnectionArn :=
             "arn:aws:apprunner:us-east-1:123456789012:vpcingressconnection/myconn/abcd1234"
           vpcIngressConnectionName :=
             "arn:aws:apprunner:us-east-1:123456789012:vpcingressconnection"
           domainName := none
           status := none }, []) := by
  rfl

/-- C7: for every ARN string, `fromArn` keeps the ARN verbatim, extracts as
the name the first `/`-delimited segment (the characters before the first
slash), and leaves `domainName` and `status` unset. -/
theorem fromArn_first_segment (arn : String) :
    (fromArn arn).1.vpcIngressConnectionArn = arn ∧
    (fromArn arn).1.vpcIngressConnectionName
      = String.mk (arn.data.takeWhile (fun c => c ≠ '/')) ∧
    (fromArn arn).1.domainName = none ∧
    (fromArn arn).1.status = none := by
  refine ⟨rfl, ?_, rfl, rfl⟩
  obtain ⟨rest, hr⟩ := splitList_head '/' arn.data
  simp [fromArn, fnSplit, fnSelect, hr]

/-- C8: for every ARN string that contains no slash, `fromArn` returns the
entire string as the name, raising no error. -/
theorem fromArn_no_slash_name_is_input (arn : String)
    (h : '/' ∉ arn.data) :
    (fromArn arn).1.vpcIngressConnectionName = arn := by
  simp [fromArn, fnSplit, fnSelect, splitList_of_not_mem h]

/-- C8 witness: a slash-free malformed ARN comes back whole as the name. -/
theorem fromArn_no_slash_name_is_input_witness :
    '/' ∉ "no-slash-here".data ∧
    (fromArn "no-slash-here").1.vpcIngressConnectionName = "no-slash-here" :=
  ⟨by decide, fromArn_no_slash_name_is_input "no-slash-here" (by decide)⟩

/-- C9: for every props value, the constructor either succeeds with exactly
one emitted request or aborts with an error and no output at all — the
validation failures happen before the request is created, so there is no
partial-success state. -/
theorem construct_all_or_nothing (props : VpcIngressConnectionProps) :
    (∃ out, construct props = Except.ok out ∧ out.requests.length = 1) ∨
    (∃ e, construct props = Except.error e) := by
  rcases hn : props.vpcIngressConnectionName with _ | nv
  · exact Or.inl ⟨emitResource props, by simp [construct, hn], rfl⟩
  · cases nv with
    | token i => exact Or.inl ⟨emitResource props, by simp [construct, hn], rfl⟩
    | concrete name =>
        by_cases h1 : jsLength name < 4 ∨ jsLength name > 40
        · exact Or.inr ⟨ConstructError.invalidNameLength (jsLength name),
            by simp [construct, hn, h1]⟩
        · by_cases h2 : matchesNamePattern name = false
          · exact Or.inr ⟨ConstructError.invalidNameFormat name,
              by simp [construct, hn, h1, h2]⟩
          · exact Or.inl ⟨emitResource props,
              by simp [construct, hn, h1, h2], rfl⟩

end VpcIngress
